import Mathlib

/-
  Verification development for the safezone_audit modular-input helper
  (src/package/bin/safezone_audit_helper.py).

  The Python helper is shallowly embedded below.  Times (datetime values)
  are represented as integers counting microseconds since the Unix epoch;
  Python dictionaries whose insertion order matters are represented as
  association lists with an insert operation that replaces in place;
  fallible calls (HTTP requests, XML parsing, KV-store access, the event
  writer) are represented by explicit Except / Option values supplied by a
  "world" record, and exceptions are propagated as Except.error values.
  Wall-clock reads (datetime.utcnow) are modelled by a clock function
  Nat -> Int together with a tick counter threaded through the run, one
  tick per utcnow() call.
-/

/-- Microseconds in 90 days, the default look-back of the helper
(timedelta(days=90)). -/
def days90 : Int := 7776000000000

/-- Python truthiness of an optional string: None and the empty string are
falsy, every other string is truthy. -/
def pyTruthy (o : Option String) : Bool :=
  match o with
  | some s => s != ""
  | none => false

/-- Rendering of an optional string inside a Python f-string: None renders
as the four characters None. -/
def pyStr (o : Option String) : String :=
  match o with
  | some s => s
  | none => "None"

/-- Lookup in an insertion-ordered dictionary (Python dict.get). -/
def dictGet {α : Type} : List (String × α) → String → Option α
  | [], _ => none
  | (k', v) :: rest, k => if k' = k then some v else dictGet rest k

/-- Insertion into an insertion-ordered dictionary (Python d[k] = v):
an existing key keeps its position and gets the new value, a new key is
appended at the end. -/
def dictInsert {α : Type} : List (String × α) → String → α → List (String × α)
  | [], k, v => [(k, v)]
  | (k', v') :: rest, k, v =>
    if k' = k then (k', v) :: rest else (k', v') :: dictInsert rest k v

/-- XML element as produced by xml.etree.ElementTree: a tag (which embeds
the namespace as a brace-wrapped URI when the document is
namespace-qualified), attributes, text and child elements. -/
inductive XmlElem : Type where
  | mk : String → List (String × String) → Option String → List XmlElem → XmlElem

def XmlElem.tag : XmlElem → String
  | .mk t _ _ _ => t

def XmlElem.attrib : XmlElem → List (String × String)
  | .mk _ a _ _ => a

def XmlElem.text : XmlElem → Option String
  | .mk _ _ tx _ => tx

def XmlElem.children : XmlElem → List XmlElem
  | .mk _ _ _ c => c

/-- ElementTree findall with a plain tag: the direct children carrying
exactly that tag, in document order. -/
def findallChild (t : String) (e : XmlElem) : List XmlElem :=
  e.children.filter (fun c => c.tag == t)

mutual
/-- ElementTree findall with a descendant query (the .//tag form): every
subelement at any depth whose tag matches, in document (pre-)order.  The
element itself is not a candidate. -/
def findallDeep (t : String) : XmlElem → List XmlElem
  | .mk _ _ _ ch => findallDeepL t ch

/-- Descendant search over a list of sibling elements, in document order. -/
def findallDeepL (t : String) : List XmlElem → List XmlElem
  | [] => []
  | XmlElem.mk ct ca ctx cch :: rest =>
    (if ct == t then [XmlElem.mk ct ca ctx cch] else [])
      ++ findallDeepL t cch ++ findallDeepL t rest
end

/-- Tag of a namespace-qualified safezone element, the expansion of the
query .//ns:safezone under the namespace mapping of the helper (line 87). -/
def nsSafezoneTag : String := "\x7burn:criticalarc:x:safezone\x7dsafezone"

/-- Characters of a reversed string up to (excluding) the first
occurrence of a separator: the reversal of the part of the original
string after the last separator. -/
def takeUntilChar (sep : Char) : List Char → List Char
  | [] => []
  | c :: rest => if c = sep then [] else c :: takeUntilChar sep rest

/-- Namespace stripping applied to child tags by the flattener (lines
129-131): tag.split of the closing brace, last component - that is, the
part of the tag after the last closing brace, the whole tag when none
occurs. -/
def stripNs (t : String) : String :=
  String.mk ((takeUntilChar '\x7d' t.data.reverse).reverse)

/-- Value stored for one parameter of a record (lines 150-155). -/
structure ParamVal where
  value : Option String
  typ : Option String
  name : Option String
  tag_id : Option String
deriving DecidableEq, Repr

/-- Values that can appear in the flattened record dictionary: optional
strings (attributes, element text), the params sub-dictionary and the tags
list. -/
inductive FieldVal : Type where
  | str : Option String → FieldVal
  | params : List (String × ParamVal) → FieldVal
  | tags : List String → FieldVal
deriving DecidableEq, Repr

/-- Derived key for one parameter, lines 144-148 of the helper:
if tag_id is truthy the key is name_tag_id when name is truthy else
tag_id; otherwise the key is name when name is truthy else
param_ followed by the f-string rendering of the type attribute. -/
def paramKey (name tagId ptype : Option String) : String :=
  if pyTruthy tagId then
    (if pyTruthy name then pyStr name ++ "_" ++ pyStr tagId else pyStr tagId)
  else
    (if pyTruthy name then pyStr name else "param_" ++ pyStr ptype)

/-- Attributes read for one parameter element (lines 139-142). -/
def paramAttrs (p : XmlElem) : Option String × Option String × Option String :=
  (dictGet p.attrib "name", dictGet p.attrib "tag-id", dictGet p.attrib "type")

/-- Single step of the params loop (lines 138-155): insert the parameter
under its derived key, overwriting any earlier parameter with the same
key. -/
def paramStep (d : List (String × ParamVal)) (p : XmlElem) : List (String × ParamVal) :=
  let a := paramAttrs p
  dictInsert d (paramKey a.1 a.2.1 a.2.2) ⟨p.text, a.2.2, a.1, a.2.1⟩

/-- The params dictionary built from the children of a params element
(lines 137-156). -/
def paramsOf (children : List XmlElem) : List (String × ParamVal) :=
  children.foldl paramStep []

/-- The tags list built from the children of a tags element (lines
158-163): the text of each tag child whose text is truthy, in order. -/
def tagsOf (children : List XmlElem) : List String :=
  children.foldl
    (fun acc t =>
      match t.text with
      | some s => if s = "" then acc else acc ++ [s]
      | none => acc)
    []

/-- Dispatch on one child element of a record (lines 127-165): desc maps
to description, params and tags to their structured forms, and any other
namespace-stripped tag name to the text of the child. -/
def childStep (d : List (String × FieldVal)) (child : XmlElem) : List (String × FieldVal) :=
  let tn := stripNs child.tag
  if tn = "desc" then dictInsert d "description" (.str child.text)
  else if tn = "params" then dictInsert d "params" (.params (paramsOf child.children))
  else if tn = "tags" then dictInsert d "tags" (.tags (tagsOf child.children))
  else dictInsert d tn (.str child.text)

/-- Key under which one child element lands in the flattened dictionary. -/
def childKey (child : XmlElem) : String :=
  let tn := stripNs child.tag
  if tn = "desc" then "description" else tn

/-- Value under which one child element lands in the flattened
dictionary. -/
def childVal (child : XmlElem) : FieldVal :=
  let tn := stripNs child.tag
  if tn = "desc" then .str child.text
  else if tn = "params" then .params (paramsOf child.children)
  else if tn = "tags" then .tags (tagsOf child.children)
  else .str child.text

/-- Parameter-key precedence as the specification words it: name and
tag-id combined when both are present, else the tag-id alone, else the
name alone, else param_ followed by the type.  Presence is Python
truthiness, a non-empty value. -/
def specParamKey (name tagId ptype : Option String) : String :=
  if pyTruthy name && pyTruthy tagId then pyStr name ++ "_" ++ pyStr tagId
  else if pyTruthy tagId then pyStr tagId
  else if pyTruthy name then pyStr name
  else "param_" ++ pyStr ptype

/-- Parameter value as the specification words it: the text together with
the type, name and tag-id attributes. -/
def specParamVal (p : XmlElem) : ParamVal :=
  ⟨p.text, dictGet p.attrib "type", dictGet p.attrib "name", dictGet p.attrib "tag-id"⟩

/-- Spec-side derived key of one parameter element. -/
def specParamKeyOf (p : XmlElem) : String :=
  let a := paramAttrs p
  specParamKey a.1 a.2.1 a.2.2

/-- One raw event as appended by get_data_from_api (line 168): the
timestamp attribute, the safezone id as source, and the flattened record
dictionary. -/
structure RawEvent where
  time : Option String
  source : String
  data : List (String × FieldVal)
deriving DecidableEq, Repr

/-- Flattening of one record element (lines 115-169): the dictionary
starts from the record_id, type and service attributes and is then
extended child by child. -/
def flattenRecord (safezoneId : String) (record : XmlElem) : RawEvent :=
  { time := dictGet record.attrib "timestamp"
  , source := safezoneId
  , data :=
      record.children.foldl childStep
        [("record_id", .str (dictGet record.attrib "id")),
         ("type", .str (dictGet record.attrib "type")),
         ("service", .str (dictGet record.attrib "service"))] }

/-
  Calendar arithmetic and the model of datetime.fromisoformat /
  datetime.isoformat / strftime.  Dates are converted between a civil
  (year, month, day) triple and a day count since 1970-01-01 with the
  standard civil-from-days / days-from-civil algorithms; Int.ediv and
  Int.emod give floor semantics for the positive divisors used here.
-/

/-- Day count since 1970-01-01 of a civil date. -/
def daysFromCivil (y m d : Int) : Int :=
  let y2 := if m ≤ 2 then y - 1 else y
  let era := y2.ediv 400
  let yoe := y2 - era * 400
  let mp := (m + 9).emod 12
  let doy := (153 * mp + 2).ediv 5 + d - 1
  let doe := yoe * 365 + yoe.ediv 4 - yoe.ediv 100 + doy
  era * 146097 + doe - 719468

/-- Civil date of a day count since 1970-01-01. -/
def civilFromDays (z0 : Int) : Int × Int × Int :=
  let z := z0 + 719468
  let era := z.ediv 146097
  let doe := z - era * 146097
  let yoe := (doe - doe.ediv 1460 + doe.ediv 36524 - doe.ediv 146096).ediv 365
  let y := yoe + era * 400
  let doy := doe - (365 * yoe + yoe.ediv 4 - yoe.ediv 100)
  let mp := (5 * doy + 2).ediv 153
  let d := doy - (153 * mp + 2).ediv 5 + 1
  let m := if mp < 10 then mp + 3 else mp - 9
  (if m ≤ 2 then y + 1 else y, m, d)

/-- Leap-year test of the Gregorian calendar. -/
def isLeap (y : Int) : Bool :=
  (y.emod 4 == 0 && y.emod 100 != 0) || y.emod 400 == 0

/-- Number of days of a month, as validated by datetime. -/
def daysInMonth (y m : Int) : Int :=
  if m = 2 then (if isLeap y then 29 else 28)
  else if m = 4 ∨ m = 6 ∨ m = 9 ∨ m = 11 then 30
  else 31

/-- Numeric value of a decimal digit character. -/
def digitVal (c : Char) : Int :=
  Int.ofNat c.toNat - 48

/-- Value of a two-digit field. -/
def d2 (a b : Char) : Int :=
  10 * digitVal a + digitVal b

/-- Value of a four-digit field. -/
def d4 (a b c d : Char) : Int :=
  1000 * digitVal a + 100 * digitVal b + 10 * digitVal c + digitVal d

/-- Digit test for all characters of a list. -/
def allDigits (l : List Char) : Bool :=
  l.all Char.isDigit

/-- Microseconds since the epoch of a validated civil date and time. -/
def mkStamp (y mo dy h mi s usec : Int) : Int :=
  ((daysFromCivil y mo dy) * 86400 + h * 3600 + mi * 60 + s) * 1000000 + usec

/-- Range validation of a civil date, as datetime.fromisoformat performs
it through the date constructor. -/
def dateOk (y mo dy : Int) : Bool :=
  1 ≤ mo && mo ≤ 12 && 1 ≤ dy && dy ≤ daysInMonth y mo

/-- Range validation of a time of day. -/
def clockOk (h mi s : Int) : Bool :=
  0 ≤ h && h ≤ 23 && 0 ≤ mi && mi ≤ 59 && 0 ≤ s && s ≤ 59

/-- Split of the time-of-day text at the first sign character, where the
UTC offset begins: CPython scans the time string for a plus or minus. -/
def splitSign : List Char → List Char × List Char
  | [] => ([], [])
  | c :: rest =>
    if c = '+' ∨ c = '-' then ([], c :: rest)
    else
      let r := splitSign rest
      (c :: r.1, r.2)

/-- UTC offset in seconds: absent (a naive value, offset zero), or a sign
followed by HH:MM or HH:MM:SS with the fields in clock range. -/
def parseOffsFull : List Char → Option Int
  | [] => some 0
  | ['+', h1, h2, ':', m1, m2] =>
    if allDigits [h1, h2, m1, m2] && clockOk (d2 h1 h2) (d2 m1 m2) 0 then
      some (3600 * d2 h1 h2 + 60 * d2 m1 m2)
    else none
  | ['-', h1, h2, ':', m1, m2] =>
    if allDigits [h1, h2, m1, m2] && clockOk (d2 h1 h2) (d2 m1 m2) 0 then
      some (-(3600 * d2 h1 h2 + 60 * d2 m1 m2))
    else none
  | ['+', h1, h2, ':', m1, m2, ':', s1, s2] =>
    if allDigits [h1, h2, m1, m2, s1, s2] &&
        clockOk (d2 h1 h2) (d2 m1 m2) (d2 s1 s2) then
      some (3600 * d2 h1 h2 + 60 * d2 m1 m2 + d2 s1 s2)
    else none
  | ['-', h1, h2, ':', m1, m2, ':', s1, s2] =>
    if allDigits [h1, h2, m1, m2, s1, s2] &&
        clockOk (d2 h1 h2) (d2 m1 m2) (d2 s1 s2) then
      some (-(3600 * d2 h1 h2 + 60 * d2 m1 m2 + d2 s1 s2))
    else none
  | _ => none

/-- Time of day in microseconds, in the shapes CPython fromisoformat
accepts: HH, HH:MM or HH:MM:SS, the last optionally with a three- or
six-digit fraction.  A trailing Z designator is not part of any shape,
which is how the Python versions before 3.11 reject it. -/
def parseClock : List Char → Option Int
  | [h1, h2] =>
    if allDigits [h1, h2] && clockOk (d2 h1 h2) 0 0 then
      some (d2 h1 h2 * 3600000000)
    else none
  | [h1, h2, ':', m1, m2] =>
    if allDigits [h1, h2, m1, m2] && clockOk (d2 h1 h2) (d2 m1 m2) 0 then
      some ((d2 h1 h2 * 3600 + d2 m1 m2 * 60) * 1000000)
    else none
  | [h1, h2, ':', m1, m2, ':', s1, s2] =>
    if allDigits [h1, h2, m1, m2, s1, s2] &&
        clockOk (d2 h1 h2) (d2 m1 m2) (d2 s1 s2) then
      some ((d2 h1 h2 * 3600 + d2 m1 m2 * 60 + d2 s1 s2) * 1000000)
    else none
  | [h1, h2, ':', m1, m2, ':', s1, s2, '.', f1, f2, f3] =>
    if allDigits [h1, h2, m1, m2, s1, s2, f1, f2, f3] &&
        clockOk (d2 h1 h2) (d2 m1 m2) (d2 s1 s2) then
      some ((d2 h1 h2 * 3600 + d2 m1 m2 * 60 + d2 s1 s2) * 1000000 +
        (100 * digitVal f1 + 10 * digitVal f2 + digitVal f3) * 1000)
    else none
  | [h1, h2, ':', m1, m2, ':', s1, s2, '.', f1, f2, f3, f4, f5, f6] =>
    if allDigits [h1, h2, m1, m2, s1, s2, f1, f2, f3, f4, f5, f6] &&
        clockOk (d2 h1 h2) (d2 m1 m2) (d2 s1 s2) then
      some ((d2 h1 h2 * 3600 + d2 m1 m2 * 60 + d2 s1 s2) * 1000000 +
        100000 * digitVal f1 + 10000 * digitVal f2 + 1000 * digitVal f3 +
        100 * digitVal f4 + 10 * digitVal f5 + digitVal f6)
    else none
  | _ => none

/-- ISO-8601 parser modelling datetime.fromisoformat of the Python
versions before 3.11 (the inverse of isoformat): a ten-character civil
date, optionally followed by one separator character of ANY kind - the
grammar is YYYY-MM-DD followed by any single character and the time -
and a time of day with an optional UTC offset.  The result is in
microseconds since the epoch; a naive value is taken as UTC. -/
def parseIsoL : List Char → Option Int
  | [y1, y2, y3, y4, '-', o1, o2, '-', a1, a2] =>
    if allDigits [y1, y2, y3, y4, o1, o2, a1, a2] &&
        dateOk (d4 y1 y2 y3 y4) (d2 o1 o2) (d2 a1 a2) then
      some (mkStamp (d4 y1 y2 y3 y4) (d2 o1 o2) (d2 a1 a2) 0 0 0 0)
    else none
  | y1 :: y2 :: y3 :: y4 :: '-' :: o1 :: o2 :: '-' :: a1 :: a2 :: _sep :: timeRest =>
    if allDigits [y1, y2, y3, y4, o1, o2, a1, a2] &&
        dateOk (d4 y1 y2 y3 y4) (d2 o1 o2) (d2 a1 a2) then
      match parseClock (splitSign timeRest).1, parseOffsFull (splitSign timeRest).2 with
      | some tv, some off =>
        some (mkStamp (d4 y1 y2 y3 y4) (d2 o1 o2) (d2 a1 a2) 0 0 0 0
          + tv - off * 1000000)
      | _, _ => none
    else none
  | _ => none

/-- Model of datetime.fromisoformat: parse an ISO string to microseconds
since the epoch (UTC), or nothing when the string is not a valid ISO
timestamp. -/
def fromisoformat (s : String) : Option Int :=
  parseIsoL s.data

/-- Zero-padded rendering of a two-digit field. -/
def pad2 (n : Int) : String :=
  (if n < 10 then "0" else "") ++ toString n

/-- Zero-padded rendering of a four-digit year. -/
def pad4 (n : Int) : String :=
  (if n < 10 then "000" else if n < 100 then "00" else if n < 1000 then "0" else "")
    ++ toString n

/-- Zero-padded rendering of the six-digit microsecond field. -/
def pad6 (n : Int) : String :=
  (if n < 10 then "00000" else if n < 100 then "0000" else if n < 1000 then "000"
   else if n < 10000 then "00" else if n < 100000 then "0" else "")
    ++ toString n

/-- Date and time fields of a microsecond timestamp. -/
def dtFields (t : Int) : Int × Int × Int × Int × Int × Int × Int :=
  let usec := t.emod 1000000
  let secs := t.ediv 1000000
  let day := secs.ediv 86400
  let sod := secs.emod 86400
  let c := civilFromDays day
  (c.1, c.2.1, c.2.2, sod.ediv 3600, (sod.emod 3600).ediv 60, sod.emod 60, usec)

/-- Model of datetime.isoformat on a naive UTC value: the microsecond part
is omitted when it is zero. -/
def isoformat (t : Int) : String :=
  let f := dtFields t
  pad4 f.1 ++ "-" ++ pad2 f.2.1 ++ "-" ++ pad2 f.2.2.1 ++ "T" ++
    pad2 f.2.2.2.1 ++ ":" ++ pad2 f.2.2.2.2.1 ++ ":" ++ pad2 f.2.2.2.2.2.1 ++
    (if f.2.2.2.2.2.2 = 0 then "" else "." ++ pad6 f.2.2.2.2.2.2)

/-- Model of strftime with the fixed vendor format (lines 104-105): the
microsecond field is always rendered and a literal Z is appended. -/
def strftimeApi (t : Int) : String :=
  let f := dtFields t
  pad4 f.1 ++ "-" ++ pad2 f.2.1 ++ "-" ++ pad2 f.2.2.1 ++ "T" ++
    pad2 f.2.2.2.1 ++ ":" ++ pad2 f.2.2.2.2.1 ++ ":" ++ pad2 f.2.2.2.2.2.1 ++
    "." ++ pad6 f.2.2.2.2.2.2 ++ "Z"

/-- Characters substituted for a Z by the time normalisation of the event
loop (line 240). -/
def plus00 : List Char := ['+', '0', '0', ':', '0', '0']

/-- Replacement of every occurrence of Z, the behaviour of Python
str.replace as called on line 240. -/
def replaceAllZL : List Char → List Char
  | [] => []
  | c :: rest => (if c = 'Z' then plus00 else [c]) ++ replaceAllZL rest

/-- String form of the Z replacement of line 240. -/
def pyReplaceZ (s : String) : String :=
  String.mk (replaceAllZL s.data)

/-- Replacement of a trailing Z only, the normalisation the specification
describes (the source replaces every occurrence instead). -/
def replaceTrailingZL (l : List Char) : List Char :=
  if l.getLast? = some 'Z' then l.dropLast ++ plus00 else l

/-- String form of the trailing-Z replacement. -/
def replaceTrailingZ (s : String) : String :=
  String.mk (replaceTrailingZL s.data)

/-
  Model of get_data_from_api (lines 63-172).  The two HTTP endpoints are
  an oracle: the zones listing is a single outcome, the audit-records
  endpoint answers per safezone id.  An unsuccessful HTTP status
  (raise_for_status) and an XML parse failure both surface as an
  Except.error, matching the exceptions the Python code lets propagate.
-/

/-- Exceptions the helper can raise or observe. -/
inductive PyErr : Type where
  | apiError (status : Nat)
  | parseError
  | keyError (k : String)
  | configError
  | ckptWriteError
  | writerError
deriving DecidableEq, Repr

/-- Account configuration returned by get_account_config (lines 27-31). -/
structure AccountConfig where
  username : Option String
  password : Option String
  customername : String
deriving DecidableEq, Repr

/-- Oracle for the two vendor endpoints of one run. -/
structure ApiWorld where
  zonesResp : Except PyErr XmlElem
  auditResp : String → Except PyErr XmlElem

/-- Audit-records request as issued on lines 101-107: the safezone id in
the URL and the formatted from and to query parameters. -/
structure AuditReq where
  zone : String
  fromStr : String
  toStr : String
deriving DecidableEq, Repr

/-- Body of the per-safezone loop (lines 96-169): read the id attribute
(a missing id raises KeyError), fetch the audit records (an unsuccessful
status raises), select the record children with a plain non-namespaced
query, and flatten each record. -/
def fetchZone (w : ApiWorld) (fs ts : String)
    (acc : List RawEvent × List AuditReq) (z : XmlElem) :
    Except PyErr (List RawEvent × List AuditReq) :=
  match dictGet z.attrib "id" with
  | none => .error (.keyError "id")
  | some zid =>
    match w.auditResp zid with
    | .error e => .error e
    | .ok auditXml =>
      .ok (acc.1 ++ (findallChild "record" auditXml).map (flattenRecord zid),
           acc.2 ++ [⟨zid, fs, ts⟩])

/-- Sequential traversal of the safezones with exception propagation. -/
def zonesLoop (w : ApiWorld) (fs ts : String) :
    List XmlElem → List RawEvent × List AuditReq →
    Except PyErr (List RawEvent × List AuditReq)
  | [], acc => .ok acc
  | z :: rest, acc =>
    match fetchZone w fs ts acc z with
    | .error e => .error e
    | .ok acc2 => zonesLoop w fs ts rest acc2

/-- Safezone elements selected from the zones listing (lines 85-92): the
namespace-qualified descendant query first, and the plain direct-child
query only when it found nothing. -/
def selectSafezones (xml : XmlElem) : List XmlElem :=
  let s1 := findallDeep nsSafezoneTag xml
  if s1.length = 0 then findallChild "safezone" xml else s1

/-- Model of get_data_from_api, also returning the audit requests the run
issued.  The account configuration only feeds authentication and the
request URL, which the oracle absorbs. -/
def get_data_from_api_traced (w : ApiWorld) (_config : AccountConfig)
    (start_date end_date : Int) :
    Except PyErr (List RawEvent × List AuditReq) :=
  match w.zonesResp with
  | .error e => .error e
  | .ok xml =>
    zonesLoop w (strftimeApi start_date) (strftimeApi end_date)
      (selectSafezones xml) ([], [])

/-- Model of get_data_from_api as the Python function returns it: the
event list alone. -/
def get_data_from_api (w : ApiWorld) (config : AccountConfig)
    (start_date end_date : Int) : Except PyErr (List RawEvent) :=
  (get_data_from_api_traced w config start_date end_date).map (fun r => r.1)

/-
  Model of stream_events (lines 179-280) and its checkpoint helpers.
  The checkpoint store is an insertion-ordered map from key to the stored
  mapping; a per-input world says whether the store read raises, how the
  endpoints answer, whether the event writer fails at some event index,
  and whether the checkpoint write succeeds.
-/

/-- Checkpoint key of one input and account (lines 34-36). -/
def get_checkpoint_key (input_name account_name : String) : String :=
  input_name ++ "_" ++ account_name ++ "_last_end_date"

/-- Model of get_last_end_date (lines 39-49): the stored last_end_date is
returned when the read succeeds, the stored mapping is truthy, the field
is present and it parses; every other path, a raising read included,
falls through to utcnow() minus ninety days, which consumes one clock
tick. -/
def get_last_end_date (store : List (String × List (String × String)))
    (readFail : Bool) (key : String) (clock : Nat → Int) (tick : Nat) :
    Int × Nat :=
  let dflt := (clock tick - days90, tick + 1)
  if readFail then dflt
  else
    match dictGet store key with
    | none => dflt
    | some m =>
      if m = [] then dflt
      else
        match dictGet m "last_end_date" with
        | none => dflt
        | some v =>
          match fromisoformat v with
          | some t => (t, tick)
          | none => dflt

/-- Model of save_checkpoint (lines 52-60): build the mapping with the
isoformat of the end date and of a fresh utcnow(), then update the store;
a failing update raises and leaves the store unchanged. -/
def save_checkpoint (store : List (String × List (String × String)))
    (writeOk : Bool) (key : String) (end_date : Int) (clock : Nat → Int)
    (tick : Nat) :
    (List (String × List (String × String)) × Nat) × Option PyErr :=
  let data := [("last_end_date", isoformat end_date),
               ("updated_at", isoformat (clock tick))]
  if writeOk then ((dictInsert store key data, tick + 1), none)
  else ((store, tick + 1), some .ckptWriteError)

/-- Event time normalisation of the emission loop (lines 236-243): a
falsy time string is skipped, otherwise every Z is replaced by +00:00 and
the string is parsed, a parse failure leaving the time unset. -/
def eventTimeOf (t : Option String) : Option Int :=
  match t with
  | none => none
  | some s => if s = "" then none else fromisoformat (pyReplaceZ s)

/-- One event as handed to the event writer (lines 248-256). -/
structure Emitted where
  time : Option Int
  data : List (String × FieldVal)
  index : Option String
  sourcetype : String
  source : String
deriving DecidableEq, Repr

/-- Rendering of one raw event for the writer: normalised time, the
flattened data, the configured index, the fixed sourcetype and the event
source (always the safezone id, line 246). -/
def renderEvent (index : Option String) (e : RawEvent) : Emitted :=
  { time := eventTimeOf e.time
  , data := e.data
  , index := index
  , sourcetype := "safezone:audit"
  , source := e.source }

/-- Emission loop (lines 234-257): events are written one by one; when
the writer raises at index k the events before k have been written and
the exception propagates. -/
def emitEvents (index : Option String) (events : List RawEvent)
    (failAt : Option Nat) : List Emitted × Option PyErr :=
  match failAt with
  | none => (events.map (renderEvent index), none)
  | some k =>
    if k < events.length then ((events.take k).map (renderEvent index), some .writerError)
    else (events.map (renderEvent index), none)

/-- Normalisation of the input name (line 206): the part after the last
slash (input_name.split of the slash, last component). -/
def normalizeName (raw : String) : String :=
  String.mk ((takeUntilChar '/' raw.data.reverse).reverse)

/-- Per-input world of one stream_events cycle. -/
structure InputSpec where
  rawName : String
  account : Option String
  index : Option String
  configResult : Except PyErr AccountConfig
  readFail : Bool
  api : ApiWorld
  emitFailAt : Option Nat
  ckptWriteOk : Bool

/-- Mutable state of one stream_events cycle: the checkpoint store, the
events written so far, the logged exceptions, the inputs whose run was
started, and the clock tick. -/
structure RunState where
  store : List (String × List (String × String))
  emitted : List Emitted
  errors : List String
  attempted : List String
  tick : Nat
deriving DecidableEq, Repr

/-- Log line of a caught exception. -/
def errMsg : PyErr → String
  | .apiError st => "api error " ++ toString st
  | .parseError => "xml parse error"
  | .keyError k => "key error " ++ k
  | .configError => "config error"
  | .ckptWriteError => "checkpoint write error"
  | .writerError => "writer error"

/-- Body of the try block of one input (lines 209-271): resolve the
account configuration, compute the window from the checkpoint and
utcnow(), fetch and flatten, emit, and save the checkpoint; the second
component is the exception that escaped the body, if any. -/
def runInputBody (clock : Nat → Int) (st : RunState) (inp : InputSpec) :
    RunState × Option PyErr :=
  match inp.configResult with
  | .error e => (st, some e)
  | .ok config =>
    let n := normalizeName inp.rawName
    let key := get_checkpoint_key n (pyStr inp.account)
    let r := get_last_end_date st.store inp.readFail key clock st.tick
    let end_date := clock r.2
    let t2 := r.2 + 1
    match get_data_from_api_traced inp.api config r.1 end_date with
    | .error e => ({ st with tick := t2 }, some e)
    | .ok res =>
      let em := emitEvents inp.index res.1 inp.emitFailAt
      let st1 := { st with emitted := st.emitted ++ em.1, tick := t2 }
      match em.2 with
      | some e => (st1, some e)
      | none =>
        let sv := save_checkpoint st1.store inp.ckptWriteOk key end_date clock t2
        ({ st1 with store := sv.1.1, tick := sv.1.2 }, sv.2)

/-- One iteration of the input loop (lines 205-279): the input is
recorded as attempted, its body runs, and an escaping exception is caught
and logged, never propagated. -/
def processOneInput (clock : Nat → Int) (st : RunState) (inp : InputSpec) :
    RunState :=
  let n := normalizeName inp.rawName
  let st0 := { st with attempted := st.attempted ++ [n] }
  match runInputBody clock st0 inp with
  | (st1, none) => st1
  | (st1, some e) => { st1 with errors := st1.errors ++ [n ++ ": " ++ errMsg e] }

/-- World of one whole stream_events cycle. -/
structure StreamWorld where
  ckptInit : Bool
  clock : Nat → Int
  initialStore : List (String × List (String × String))
  inputs : List InputSpec

/-- Model of stream_events (lines 179-280): a failed checkpointer
initialisation logs and returns before any input is touched; otherwise
the inputs are processed sequentially. -/
def stream_events (w : StreamWorld) : RunState :=
  let st0 : RunState := ⟨w.initialStore, [], [], [], 0⟩
  if w.ckptInit then w.inputs.foldl (processOneInput w.clock) st0
  else { st0 with errors := ["Failed to initialize KVStore checkpointer"] }

/-- Namespace qualification of a tag with the vendor namespace, used to
compare a namespace-qualified document with its plain form. -/
def qualifyTag (t : String) : String :=
  "\x7burn:criticalarc:x:safezone\x7d" ++ t

mutual
/-- Namespace qualification of a whole document: every tag of the tree is
prefixed with the vendor namespace, nothing else changes. -/
def qualifyE : XmlElem → XmlElem
  | .mk t a tx ch => .mk (qualifyTag t) a tx (qualifyL ch)

/-- Namespace qualification of a list of sibling elements. -/
def qualifyL : List XmlElem → List XmlElem
  | [] => []
  | c :: rest => qualifyE c :: qualifyL rest
end

/-
  Theorems.  Helper lemmas first, then one theorem per claim (with its
  witness or counterexample where applicable).
-/

theorem dictGet_insert_self {α : Type} (d : List (String × α)) (k : String) (v : α) :
    dictGet (dictInsert d k v) k = some v := by
  induction d with
  | nil => simp [dictInsert, dictGet]
  | cons p rest ih =>
    by_cases h : p.1 = k
    · simp [dictInsert, dictGet, h]
    · simp [dictInsert, dictGet, h, ih]

theorem dictGet_insert_ne {α : Type} (d : List (String × α)) (k k' : String) (v : α)
    (h : k' ≠ k) : dictGet (dictInsert d k' v) k = dictGet d k := by
  have h4 : ¬(k = k') := fun he => h he.symm
  induction d with
  | nil => simp [dictInsert, dictGet, h4, h]
  | cons p rest ih =>
    by_cases h2 : p.1 = k'
    · simp [dictInsert, dictGet, h2, h, h4]
    · by_cases h3 : p.1 = k
      · simp [dictInsert, dictGet, h2, h3, h4]
      · simp [dictInsert, dictGet, h2, h3, ih]

theorem dictGet_insert_isSome {α : Type} (d : List (String × α)) (k k' : String) (v : α)
    (h : (dictGet d k).isSome) : (dictGet (dictInsert d k' v) k).isSome := by
  by_cases he : k' = k
  · subst he; simp [dictGet_insert_self]
  · rwa [dictGet_insert_ne d k k' v he]

theorem getLast?_cons_ne {α : Type} (a : α) (l : List α) (h : l ≠ []) :
    (a :: l).getLast? = l.getLast? := by
  cases l with
  | nil => exact absurd rfl h
  | cons b t => simp [List.getLast?_cons_cons]

theorem paramKey_eq_spec (name tagId ptype : Option String) :
    paramKey name tagId ptype = specParamKey name tagId ptype := by
  unfold paramKey specParamKey
  cases h1 : pyTruthy tagId <;> cases h2 : pyTruthy name <;> simp [h1, h2]

theorem paramStep_eq_insert (d : List (String × ParamVal)) (p : XmlElem) :
    paramStep d p = dictInsert d (specParamKeyOf p) (specParamVal p) := by
  simp only [paramStep, specParamKeyOf, specParamVal, paramAttrs, paramKey_eq_spec]

theorem dictGet_foldl_paramStep (children : List XmlElem)
    (d : List (String × ParamVal)) (k : String) :
    dictGet (children.foldl paramStep d) k =
      (((children.filter (fun p => specParamKeyOf p == k)).getLast?).map specParamVal).or
        (dictGet d k) := by
  induction children generalizing d with
  | nil => simp [List.foldl]
  | cons p rest ih =>
    rw [List.foldl_cons, paramStep_eq_insert, ih]
    by_cases hk : specParamKeyOf p = k
    · subst hk
      rw [dictGet_insert_self, List.filter_cons_of_pos (by simp)]
      cases hrest : rest.filter (fun q => specParamKeyOf q == specParamKeyOf p) with
      | nil => simp
      | cons q qs =>
        rw [getLast?_cons_ne p (q :: qs) (by simp)]
        cases hlast : (q :: qs).getLast? with
        | none => simp at hlast
        | some z => simp [hlast]
    · rw [dictGet_insert_ne d k (specParamKeyOf p) (specParamVal p) hk,
        List.filter_cons_of_neg (by simpa using hk)]

/-- C5: in data.params each parameter key follows the stated precedence
(name_tag_id when both name and tag-id are present, else tag_id alone,
else name alone, else param_ followed by the type), each value is the
mapping of value, type, name and tag_id, and when two parameters derive
the same key the later one in document order silently overwrites the
earlier: the entry found at any key is the last parameter in document
order deriving that key. -/
theorem params_key_precedence_last_wins (children : List XmlElem) (k : String) :
    dictGet (paramsOf children) k =
      ((children.filter (fun p => specParamKeyOf p == k)).getLast?).map specParamVal := by
  rw [paramsOf, dictGet_foldl_paramStep]
  simp [dictGet]


theorem childStep_eq_insert (d : List (String × FieldVal)) (c : XmlElem) :
    childStep d c = dictInsert d (childKey c) (childVal c) := by
  simp only [childStep, childKey, childVal]
  split_ifs with h1 h2 h3 <;> simp_all

theorem dictGet_foldl_childStep_not_mem (children : List XmlElem)
    (d : List (String × FieldVal)) (k : String)
    (h : k ∉ children.map childKey) :
    dictGet (children.foldl childStep d) k = dictGet d k := by
  induction children generalizing d with
  | nil => rfl
  | cons c rest ih =>
    simp only [List.map_cons, List.mem_cons, not_or] at h
    rw [List.foldl_cons, childStep_eq_insert,
      ih _ h.2, dictGet_insert_ne d k (childKey c) (childVal c) (fun he => h.1 he.symm)]

theorem dictGet_foldl_childStep_isSome (children : List XmlElem)
    (d : List (String × FieldVal)) (k : String)
    (h : (dictGet d k).isSome) :
    (dictGet (children.foldl childStep d) k).isSome := by
  induction children generalizing d with
  | nil => exact h
  | cons c rest ih =>
    rw [List.foldl_cons, childStep_eq_insert]
    exact ih _ (dictGet_insert_isSome d k (childKey c) (childVal c) h)

/-- C6 counterexample: a record carrying an attribute zone besides id and
timestamp; the claim says every remaining attribute is copied to the top
level of data, but the flattened data does not contain the key zone. -/
theorem record_attrs_not_copied_counterexample :
    dictGet (XmlElem.mk "record"
        [("id", "R1"), ("timestamp", "2024-01-01T00:00:00Z"), ("zone", "Z9")]
        none []).attrib "zone" = some "Z9" ∧
    dictGet (flattenRecord "Z1" (XmlElem.mk "record"
        [("id", "R1"), ("timestamp", "2024-01-01T00:00:00Z"), ("zone", "Z9")]
        none [])).data "zone" = none := by
  constructor <;> rfl

/-- C6 (amended): flattening copies only the id attribute (as record_id)
and the type and service attributes into the top level of the data
mapping; every other attribute of the record, timestamp included, is not
copied: any key other than record_id, type and service that no child
element produces is absent from data, and the three copied entries hold
the respective attribute values when no child element overwrites them. -/
theorem record_attr_whitelist (zid : String) (r : XmlElem) (k : String) :
    (k ≠ "record_id" → k ≠ "type" → k ≠ "service" → k ∉ r.children.map childKey →
      dictGet (flattenRecord zid r).data k = none) ∧
    ("record_id" ∉ r.children.map childKey →
      dictGet (flattenRecord zid r).data "record_id" = some (.str (dictGet r.attrib "id"))) ∧
    ("type" ∉ r.children.map childKey →
      dictGet (flattenRecord zid r).data "type" = some (.str (dictGet r.attrib "type"))) ∧
    ("service" ∉ r.children.map childKey →
      dictGet (flattenRecord zid r).data "service" = some (.str (dictGet r.attrib "service"))) := by
  refine ⟨fun h1 h2 h3 h4 => ?_, fun h => ?_, fun h => ?_, fun h => ?_⟩ <;>
    unfold flattenRecord <;> simp only []
  · rw [dictGet_foldl_childStep_not_mem _ _ _ h4]
    simp [dictGet, Ne.symm h1, Ne.symm h2, Ne.symm h3]
  · rw [dictGet_foldl_childStep_not_mem _ _ _ h]
    simp [dictGet]
  · rw [dictGet_foldl_childStep_not_mem _ _ _ h]
    simp [dictGet]
  · rw [dictGet_foldl_childStep_not_mem _ _ _ h]
    simp [dictGet]

/-- Closed witness for the amended C6 at a concrete record with an extra
attribute. -/
theorem record_attr_whitelist_witness :
    dictGet (flattenRecord "Z1"
        (XmlElem.mk "record" [("id", "R1"), ("x", "1")] none [])).data "x" = none ∧
    dictGet (flattenRecord "Z1"
        (XmlElem.mk "record" [("id", "R1"), ("x", "1")] none [])).data "record_id" =
      some (.str (some "R1")) :=
  ⟨(record_attr_whitelist "Z1" (XmlElem.mk "record" [("id", "R1"), ("x", "1")] none []) "x").1
      (by decide) (by decide) (by decide) (by simp [XmlElem.children]),
   by
    have h := (record_attr_whitelist "Z1"
      (XmlElem.mk "record" [("id", "R1"), ("x", "1")] none []) "x").2.1
      (by simp [XmlElem.children])
    simpa using h⟩

/-- C9 counterexample: a record with no type attribute but with a child
element named type; the claim says the data value at type is then None,
but the child text overwrites it. -/
theorem baseline_keys_counterexample :
    dictGet (XmlElem.mk "record" [("id", "R1")] none
        [XmlElem.mk "type" [] (some "elevated") []]).attrib "type" = none ∧
    dictGet (flattenRecord "Z1" (XmlElem.mk "record" [("id", "R1")] none
        [XmlElem.mk "type" [] (some "elevated") []])).data "type" =
      some (.str (some "elevated")) := by
  constructor <;> rfl

/-- C9 (amended): the flattened data always contains the keys record_id,
type and service; the value is None when the corresponding attribute is
absent and no child element carries the same (namespace-stripped) tag
name, but a child element with that tag name overwrites the value. -/
theorem baseline_keys_amended (zid : String) (r : XmlElem) :
    ((dictGet (flattenRecord zid r).data "record_id").isSome ∧
     (dictGet (flattenRecord zid r).data "type").isSome ∧
     (dictGet (flattenRecord zid r).data "service").isSome) ∧
    (dictGet r.attrib "id" = none → "record_id" ∉ r.children.map childKey →
      dictGet (flattenRecord zid r).data "record_id" = some (.str none)) ∧
    (dictGet r.attrib "type" = none → "type" ∉ r.children.map childKey →
      dictGet (flattenRecord zid r).data "type" = some (.str none)) ∧
    (dictGet r.attrib "service" = none → "service" ∉ r.children.map childKey →
      dictGet (flattenRecord zid r).data "service" = some (.str none)) := by
  refine ⟨⟨?_, ?_, ?_⟩, fun ha hc => ?_, fun ha hc => ?_, fun ha hc => ?_⟩
  · exact dictGet_foldl_childStep_isSome _ _ _ (by simp [dictGet])
  · exact dictGet_foldl_childStep_isSome _ _ _ (by simp [dictGet])
  · exact dictGet_foldl_childStep_isSome _ _ _ (by simp [dictGet])
  · rw [flattenRecord, dictGet_foldl_childStep_not_mem _ _ _ hc]
    simp [dictGet, ha]
  · rw [flattenRecord, dictGet_foldl_childStep_not_mem _ _ _ hc]
    simp [dictGet, ha]
  · rw [flattenRecord, dictGet_foldl_childStep_not_mem _ _ _ hc]
    simp [dictGet, ha]

/-- Closed witness for the amended C9 at a record with no attributes and
no children. -/
theorem baseline_keys_amended_witness :
    dictGet (flattenRecord "Z1" (XmlElem.mk "record" [] none [])).data "type" =
      some (.str none) :=
  (baseline_keys_amended "Z1" (XmlElem.mk "record" [] none [])).2.2.1
    (by rfl) (by simp [XmlElem.children])

/-- C2: for every checkpoint store and clock, when the read succeeds, the
entry at the key exists, carries a last_end_date field and that field
parses as an ISO timestamp, the window start is exactly the parsed value
(and no clock tick is consumed); when the read raises, the entry is
absent, the field is missing or the field does not parse, the window
start is utcnow() minus 90 days and no exception escapes. -/
theorem get_last_end_date_spec (store : List (String × List (String × String)))
    (readFail : Bool) (key : String) (clock : Nat → Int) (tick : Nat) :
    (∀ m v t, dictGet store key = some m →
        dictGet m "last_end_date" = some v → fromisoformat v = some t →
        get_last_end_date store false key clock tick = (t, tick)) ∧
    (get_last_end_date store true key clock tick = (clock tick - days90, tick + 1)) ∧
    (dictGet store key = none →
        get_last_end_date store readFail key clock tick = (clock tick - days90, tick + 1)) ∧
    (∀ m, dictGet store key = some m → dictGet m "last_end_date" = none →
        get_last_end_date store readFail key clock tick = (clock tick - days90, tick + 1)) ∧
    (∀ m v, dictGet store key = some m → dictGet m "last_end_date" = some v →
        fromisoformat v = none →
        get_last_end_date store readFail key clock tick = (clock tick - days90, tick + 1)) := by
  refine ⟨fun m v t h1 h2 h3 => ?_, ?_, fun h1 => ?_, fun m h1 h2 => ?_,
    fun m v h1 h2 h3 => ?_⟩
  · have hm : m ≠ [] := by rintro rfl; simp [dictGet] at h2
    simp [get_last_end_date, h1, h2, h3, hm]
  · simp [get_last_end_date]
  · cases readFail <;> simp [get_last_end_date, h1]
  · by_cases hm : m = []
    · subst hm; cases readFail <;> simp [get_last_end_date, h1]
    · cases readFail <;> simp [get_last_end_date, h1, h2, hm]
  · have hm : m ≠ [] := by rintro rfl; simp [dictGet] at h2
    cases readFail <;> simp [get_last_end_date, h1, h2, h3, hm]

/-- Closed witness for C2: a stored checkpoint is returned exactly, and a
raising read falls back to the default window. -/
theorem get_last_end_date_spec_witness :
    get_last_end_date [("k", [("last_end_date", "2024-01-01T00:00:00")])] false "k"
      (fun _ => 0) 5 = (1704067200000000, 5) ∧
    get_last_end_date [("k", [("last_end_date", "2024-01-01T00:00:00")])] true "k"
      (fun _ => 0) 5 = (0 - days90, 5 + 1) :=
  ⟨(get_last_end_date_spec [("k", [("last_end_date", "2024-01-01T00:00:00")])] false "k"
      (fun _ => 0) 5).1 [("last_end_date", "2024-01-01T00:00:00")]
      "2024-01-01T00:00:00" 1704067200000000 rfl rfl (by decide),
   (get_last_end_date_spec [("k", [("last_end_date", "2024-01-01T00:00:00")])] true "k"
      (fun _ => 0) 5).2.1⟩

/-- C10: when the KV Store checkpointer initialisation fails,
stream_events logs and returns at once: no input is attempted, no event
is emitted, the store is untouched. -/
theorem ckpt_init_failure_skips_all (w : StreamWorld) (h : w.ckptInit = false) :
    stream_events w =
      { store := w.initialStore, emitted := [], attempted := [],
        errors := ["Failed to initialize KVStore checkpointer"], tick := 0 } := by
  simp [stream_events, h]

/-- Closed witness for C10. -/
theorem ckpt_init_failure_skips_all_witness :
    stream_events ⟨false, fun _ => 0, [], []⟩ =
      { store := [], emitted := [], attempted := [],
        errors := ["Failed to initialize KVStore checkpointer"], tick := 0 } :=
  ckpt_init_failure_skips_all ⟨false, fun _ => 0, [], []⟩ rfl

theorem runInputBody_attempted (clock : Nat → Int) (st : RunState) (inp : InputSpec) :
    (runInputBody clock st inp).1.attempted = st.attempted := by
  unfold runInputBody
  dsimp only
  split
  · rfl
  · split
    · rfl
    · split
      · rfl
      · rfl

theorem runInputBody_errors (clock : Nat → Int) (st : RunState) (inp : InputSpec) :
    (runInputBody clock st inp).1.errors = st.errors := by
  unfold runInputBody
  dsimp only
  split
  · rfl
  · split
    · rfl
    · split
      · rfl
      · rfl

theorem runInputBody_error_store (clock : Nat → Int) (st : RunState) (inp : InputSpec)
    (e : PyErr) (h : (runInputBody clock st inp).2 = some e) :
    (runInputBody clock st inp).1.store = st.store := by
  unfold runInputBody at h ⊢
  dsimp only at h ⊢
  split at h
  · rfl
  · split at h
    · rfl
    · split at h
      · rfl
      · simp only [save_checkpoint] at h ⊢
        by_cases hw : inp.ckptWriteOk = true
        · simp [hw] at h
        · simp [hw]

theorem processOneInput_attempted (clock : Nat → Int) (st : RunState) (inp : InputSpec) :
    (processOneInput clock st inp).attempted
      = st.attempted ++ [normalizeName inp.rawName] := by
  have h2 := runInputBody_attempted clock
    { st with attempted := st.attempted ++ [normalizeName inp.rawName] } inp
  unfold processOneInput
  dsimp only
  cases h : runInputBody clock
      { st with attempted := st.attempted ++ [normalizeName inp.rawName] } inp with
  | mk st1 e? =>
    rw [h] at h2
    cases e? <;> simpa using h2

/-- C3: a run cycle processes every logical input: the inputs attempted
by the loop are exactly all inputs in order, whatever exceptions occur
(conjunct one and two), and an exception escaping one input's body is
caught and logged for that input, leaving the checkpoint store and the
attempted bookkeeping of that input intact (conjunct three), so the loop
continues with every subsequent input. -/
theorem per_input_isolation (clock : Nat → Int) (st : RunState)
    (inputs : List InputSpec) (inp : InputSpec) (e : PyErr) :
    ((inputs.foldl (processOneInput clock) st).attempted
        = st.attempted ++ inputs.map (fun i => normalizeName i.rawName)) ∧
    (∀ pre post, inputs = pre ++ inp :: post →
        inputs.foldl (processOneInput clock) st
          = post.foldl (processOneInput clock)
              (processOneInput clock (pre.foldl (processOneInput clock) st) inp)) ∧
    ((runInputBody clock
          { st with attempted := st.attempted ++ [normalizeName inp.rawName] } inp).2
        = some e →
      (processOneInput clock st inp).errors
          = st.errors ++ [normalizeName inp.rawName ++ ": " ++ errMsg e] ∧
      (processOneInput clock st inp).store = st.store ∧
      (processOneInput clock st inp).attempted
          = st.attempted ++ [normalizeName inp.rawName]) := by
  refine ⟨?_, fun pre post hsplit => ?_, fun herr => ?_⟩
  · induction inputs generalizing st with
    | nil => simp
    | cons i rest ih =>
      rw [List.foldl_cons, ih (processOneInput clock st i), processOneInput_attempted]
      simp
  · rw [hsplit, List.foldl_append, List.foldl_cons]
  · have hatt := processOneInput_attempted clock st inp
    have herrs := runInputBody_errors clock
      { st with attempted := st.attempted ++ [normalizeName inp.rawName] } inp
    have hsto := runInputBody_error_store clock
      { st with attempted := st.attempted ++ [normalizeName inp.rawName] } inp e herr
    refine ⟨?_, ?_, hatt⟩
    · unfold processOneInput
      dsimp only
      cases h : runInputBody clock
          { st with attempted := st.attempted ++ [normalizeName inp.rawName] } inp with
      | mk st1 e? =>
        rw [h] at herr herrs
        cases e? with
        | none => simp at herr
        | some e2 =>
          have he : e2 = e := by simpa using herr
          subst he
          simpa using herrs
    · unfold processOneInput
      dsimp only
      cases h : runInputBody clock
          { st with attempted := st.attempted ++ [normalizeName inp.rawName] } inp with
      | mk st1 e? =>
        rw [h] at herr hsto
        cases e? with
        | none => simp at herr
        | some e2 => simpa using hsto

/-- Closed witness for C3: a failing account-configuration lookup is
logged and the checkpoint store stays untouched. -/
theorem per_input_isolation_witness :
    (processOneInput (fun _ => 0) ⟨[("k", [])], [], [], [], 0⟩
        ⟨"safezone_audit://i1", some "a", none, .error .configError, false,
          ⟨.error .parseError, fun _ => .error .parseError⟩, none, true⟩).errors
      = ["i1: " ++ errMsg .configError] ∧
    (processOneInput (fun _ => 0) ⟨[("k", [])], [], [], [], 0⟩
        ⟨"safezone_audit://i1", some "a", none, .error .configError, false,
          ⟨.error .parseError, fun _ => .error .parseError⟩, none, true⟩).store
      = [("k", [])] :=
  have h := (per_input_isolation (fun _ => 0) ⟨[("k", [])], [], [], [], 0⟩ []
      ⟨"safezone_audit://i1", some "a", none, .error .configError, false,
        ⟨.error .parseError, fun _ => .error .parseError⟩, none, true⟩
      .configError).2.2 rfl
  ⟨h.1, h.2.1⟩

theorem zonesLoop_error_of_mem (w : ApiWorld) (fs ts : String)
    (zones : List XmlElem) (z : XmlElem) (zid : String) (err : PyErr)
    (hmem : z ∈ zones) (hid : dictGet z.attrib "id" = some zid)
    (haud : w.auditResp zid = .error err) :
    ∀ acc, ∃ e2, zonesLoop w fs ts zones acc = .error e2 := by
  induction hmem with
  | head rest =>
    intro acc
    unfold zonesLoop
    cases hf : fetchZone w fs ts acc z with
    | error e0 => exact ⟨e0, by simp [hf]⟩
    | ok acc2 =>
      exfalso
      simp [fetchZone, hid, haud] at hf
  | tail b hmem2 ih =>
    intro acc
    unfold zonesLoop
    cases hf : fetchZone w fs ts acc b with
    | error e0 => exact ⟨e0, by simp [hf]⟩
    | ok acc2 => simpa [hf] using ih acc2

theorem get_data_error_forall (w : ApiWorld) (cfg : AccountConfig)
    (zx z : XmlElem) (zid : String) (err : PyErr)
    (hz : w.zonesResp = .ok zx) (hmem : z ∈ selectSafezones zx)
    (hid : dictGet z.attrib "id" = some zid)
    (haud : w.auditResp zid = .error err) :
    ∀ s e : Int, ∃ e2, get_data_from_api_traced w cfg s e = .error e2 := by
  intro s e
  unfold get_data_from_api_traced
  rw [hz]
  exact zonesLoop_error_of_mem w (strftimeApi s) (strftimeApi e)
    (selectSafezones zx) z zid err hmem hid haud ([], [])

theorem runInputBody_of_traced_error (clock : Nat → Int) (st : RunState)
    (inp : InputSpec) (cfg : AccountConfig)
    (hcfg : inp.configResult = .ok cfg)
    (herr : ∀ s e : Int, ∃ e2, get_data_from_api_traced inp.api cfg s e = .error e2) :
    ∃ e2, runInputBody clock st inp =
      ({ st with tick :=
          (get_last_end_date st.store inp.readFail
            (get_checkpoint_key (normalizeName inp.rawName) (pyStr inp.account))
            clock st.tick).2 + 1 }, some e2) := by
  obtain ⟨e2, he2⟩ := herr
    (get_last_end_date st.store inp.readFail
      (get_checkpoint_key (normalizeName inp.rawName) (pyStr inp.account))
      clock st.tick).1
    (clock (get_last_end_date st.store inp.readFail
      (get_checkpoint_key (normalizeName inp.rawName) (pyStr inp.account))
      clock st.tick).2)
  refine ⟨e2, ?_⟩
  unfold runInputBody
  dsimp only
  simp only [hcfg, he2]

/-- C1: when the audit-record fetch of some listed safezone fails with an
unsuccessful HTTP status, the run of that input ends without the
checkpoint update: the checkpoint store is unchanged (and nothing is
emitted, since the helper only emits after a fully successful fetch). -/
theorem checkpoint_unchanged_on_audit_failure (clock : Nat → Int) (st : RunState)
    (inp : InputSpec) (cfg : AccountConfig) (zx z : XmlElem) (zid : String)
    (err : PyErr)
    (hcfg : inp.configResult = .ok cfg)
    (hz : inp.api.zonesResp = .ok zx)
    (hmem : z ∈ selectSafezones zx)
    (hid : dictGet z.attrib "id" = some zid)
    (haud : inp.api.auditResp zid = .error err) :
    (processOneInput clock st inp).store = st.store ∧
    (processOneInput clock st inp).emitted = st.emitted := by
  obtain ⟨e2, hbody⟩ := runInputBody_of_traced_error clock
    { st with attempted := st.attempted ++ [normalizeName inp.rawName] } inp cfg hcfg
    (get_data_error_forall inp.api cfg zx z zid err hz hmem hid haud)
  unfold processOneInput
  dsimp only
  rw [hbody]
  exact ⟨rfl, rfl⟩

/-- Closed witness for C1: one listed safezone whose audit fetch returns
status 500; the store and the emitted list stay as they were. -/
theorem checkpoint_unchanged_on_audit_failure_witness :
    (processOneInput (fun _ => 0) ⟨[("k", [("x", "y")])], [], [], [], 0⟩
        ⟨"safezone_audit://i1", some "a", none, .ok ⟨none, none, "cust"⟩, false,
          ⟨.ok (XmlElem.mk "safezones" [] none
              [XmlElem.mk "safezone" [("id", "Z1")] none []]),
            fun _ => .error (.apiError 500)⟩, none, true⟩).store
      = [("k", [("x", "y")])] ∧
    (processOneInput (fun _ => 0) ⟨[("k", [("x", "y")])], [], [], [], 0⟩
        ⟨"safezone_audit://i1", some "a", none, .ok ⟨none, none, "cust"⟩, false,
          ⟨.ok (XmlElem.mk "safezones" [] none
              [XmlElem.mk "safezone" [("id", "Z1")] none []]),
            fun _ => .error (.apiError 500)⟩, none, true⟩).emitted
      = [] :=
  checkpoint_unchanged_on_audit_failure (fun _ => 0)
    ⟨[("k", [("x", "y")])], [], [], [], 0⟩
    ⟨"safezone_audit://i1", some "a", none, .ok ⟨none, none, "cust"⟩, false,
      ⟨.ok (XmlElem.mk "safezones" [] none
          [XmlElem.mk "safezone" [("id", "Z1")] none []]),
        fun _ => .error (.apiError 500)⟩, none, true⟩
    ⟨none, none, "cust"⟩
    (XmlElem.mk "safezones" [] none [XmlElem.mk "safezone" [("id", "Z1")] none []])
    (XmlElem.mk "safezone" [("id", "Z1")] none []) "Z1" (.apiError 500)
    rfl rfl
    (by
      rw [show selectSafezones (XmlElem.mk "safezones" [] none
          [XmlElem.mk "safezone" [("id", "Z1")] none []])
          = [XmlElem.mk "safezone" [("id", "Z1")] none []] from by
        simp [selectSafezones, findallDeep, findallDeepL, findallChild,
          nsSafezoneTag, XmlElem.children, XmlElem.tag]]
      exact List.mem_singleton.mpr rfl)
    rfl rfl

theorem fetchZone_ok_reqs (w : ApiWorld) (fs ts : String)
    (acc : List RawEvent × List AuditReq) (z : XmlElem)
    (acc2 : List RawEvent × List AuditReq)
    (h : fetchZone w fs ts acc z = .ok acc2) :
    ∃ zid, acc2.2 = acc.2 ++ [⟨zid, fs, ts⟩] := by
  unfold fetchZone at h
  cases hid : dictGet z.attrib "id" with
  | none => rw [hid] at h; simp at h
  | some zid =>
    rw [hid] at h
    dsimp only at h
    cases ha : w.auditResp zid with
    | error e0 => rw [ha] at h; simp at h
    | ok ax =>
      rw [ha] at h
      injection h with h2
      exact ⟨zid, by rw [← h2]⟩

theorem zonesLoop_reqs (w : ApiWorld) (fs ts : String) (zones : List XmlElem) :
    ∀ acc res, zonesLoop w fs ts zones acc = .ok res →
      ∀ r ∈ res.2, r ∈ acc.2 ∨ (r.fromStr = fs ∧ r.toStr = ts) := by
  induction zones with
  | nil =>
    intro acc res h r hr
    unfold zonesLoop at h
    injection h with h2
    subst h2
    exact .inl hr
  | cons z rest ih =>
    intro acc res h r hr
    unfold zonesLoop at h
    cases hf : fetchZone w fs ts acc z with
    | error e0 => rw [hf] at h; simp at h
    | ok acc2 =>
      rw [hf] at h
      rcases ih acc2 res h r hr with hin | hp
      · obtain ⟨zid, h2⟩ := fetchZone_ok_reqs w fs ts acc z acc2 hf
        rw [h2] at hin
        rcases List.mem_append.mp hin with h3 | h3
        · exact .inl h3
        · right
          have h4 : r = ⟨zid, fs, ts⟩ := by simpa using h3
          rw [h4]
          exact ⟨rfl, rfl⟩
      · exact .inr hp

theorem get_data_reqs (w : ApiWorld) (cfg : AccountConfig) (s e : Int)
    (res : List RawEvent × List AuditReq)
    (h : get_data_from_api_traced w cfg s e = .ok res) :
    ∀ r ∈ res.2, r.fromStr = strftimeApi s ∧ r.toStr = strftimeApi e := by
  unfold get_data_from_api_traced at h
  cases hz : w.zonesResp with
  | error e0 => rw [hz] at h; simp at h
  | ok zx =>
    rw [hz] at h
    intro r hr
    rcases zonesLoop_reqs w (strftimeApi s) (strftimeApi e)
        (selectSafezones zx) ([], []) res h r hr with hin | hp
    · simp at hin
    · exact hp

theorem emitEvents_nil (idx : Option String) (failAt : Option Nat) :
    emitEvents idx [] failAt = ([], none) := by
  cases failAt with
  | none => rfl
  | some k => simp [emitEvents]

/-- C8: a run whose zones listing parses to zero safezones completes
without error, emits nothing, and advances the checkpoint: the stored
last_end_date is the isoformat of the wall clock captured right after the
window computation (one utcnow() call), while updated_at uses a later
clock reading - and, in any successful fetch, every audit request carries
the strftime of the same end value as its upper bound (second
conjunct). -/
theorem zero_zones_advances_checkpoint (clock : Nat → Int) (st : RunState)
    (inp : InputSpec) (cfg : AccountConfig) (zx : XmlElem)
    (hcfg : inp.configResult = .ok cfg)
    (hz : inp.api.zonesResp = .ok zx)
    (hzero : selectSafezones zx = [])
    (hw : inp.ckptWriteOk = true) :
    ((processOneInput clock st inp).store
        = dictInsert st.store
            (get_checkpoint_key (normalizeName inp.rawName) (pyStr inp.account))
            [("last_end_date", isoformat (clock
                (get_last_end_date st.store inp.readFail
                  (get_checkpoint_key (normalizeName inp.rawName) (pyStr inp.account))
                  clock st.tick).2)),
             ("updated_at", isoformat (clock
                ((get_last_end_date st.store inp.readFail
                  (get_checkpoint_key (normalizeName inp.rawName) (pyStr inp.account))
                  clock st.tick).2 + 1)))] ∧
      (processOneInput clock st inp).emitted = st.emitted ∧
      (processOneInput clock st inp).errors = st.errors) ∧
    (∀ (w : ApiWorld) (cfg2 : AccountConfig) (s e : Int)
        (res : List RawEvent × List AuditReq),
        get_data_from_api_traced w cfg2 s e = .ok res →
        ∀ r ∈ res.2, r.fromStr = strftimeApi s ∧ r.toStr = strftimeApi e) := by
  refine ⟨?_, fun w cfg2 s e res h => get_data_reqs w cfg2 s e res h⟩
  have htr : ∀ s e : Int, get_data_from_api_traced inp.api cfg s e = .ok ([], []) := by
    intro s e
    unfold get_data_from_api_traced
    rw [hz]
    dsimp only
    rw [hzero]
    rfl
  unfold processOneInput runInputBody
  dsimp only
  simp only [hcfg, htr, emitEvents_nil, save_checkpoint, hw]
  refine ⟨rfl, by simp, rfl⟩

/-- Closed witness for C8: an empty zones listing; the checkpoint is
created with the second clock reading as last_end_date and the third as
updated_at. -/
theorem zero_zones_advances_checkpoint_witness :
    (processOneInput (fun n => ((n : Int) + 1) * 1000000) ⟨[], [], [], [], 0⟩
        ⟨"safezone_audit://i1", some "a", none, .ok ⟨none, none, "c"⟩, false,
          ⟨.ok (XmlElem.mk "safezones" [] none []), fun _ => .error .parseError⟩,
          none, true⟩).store
      = [("i1_a_last_end_date",
          [("last_end_date", "1970-01-01T00:00:02"),
           ("updated_at", "1970-01-01T00:00:03")])] ∧
    (processOneInput (fun n => ((n : Int) + 1) * 1000000) ⟨[], [], [], [], 0⟩
        ⟨"safezone_audit://i1", some "a", none, .ok ⟨none, none, "c"⟩, false,
          ⟨.ok (XmlElem.mk "safezones" [] none []), fun _ => .error .parseError⟩,
          none, true⟩).emitted = [] :=
  have h := zero_zones_advances_checkpoint (fun n => ((n : Int) + 1) * 1000000)
    ⟨[], [], [], [], 0⟩
    ⟨"safezone_audit://i1", some "a", none, .ok ⟨none, none, "c"⟩, false,
      ⟨.ok (XmlElem.mk "safezones" [] none []), fun _ => .error .parseError⟩,
      none, true⟩
    ⟨none, none, "c"⟩ (XmlElem.mk "safezones" [] none []) rfl rfl
    (by simp [selectSafezones, findallDeep, findallDeepL, findallChild,
      XmlElem.children])
    rfl
  ⟨h.1.1.trans (by decide), h.1.2.1⟩

theorem string_append_left_cancel (a b c : String) (h : a ++ b = a ++ c) : b = c := by
  have h2 := congrArg String.data h
  rw [String.data_append, String.data_append] at h2
  have h3 := List.append_cancel_left h2
  cases b
  cases c
  exact congrArg String.mk (by simpa using h3)

theorem qualifyTag_head (a : String) : (qualifyTag a).data.head? = some '\x7b' := by
  rw [qualifyTag, String.data_append,
    show ("\x7burn:criticalarc:x:safezone\x7d" : String).data
      = '\x7b' :: ("urn:criticalarc:x:safezone\x7d" : String).data from by decide]
  rfl

theorem qualifyTag_ne (a t : String) (ht : ¬ t.data.head? = some '\x7b') :
    qualifyTag a ≠ t :=
  fun h => ht (h ▸ qualifyTag_head a)

theorem qualifyTag_inj (a b : String) (h : qualifyTag a = qualifyTag b) : a = b :=
  string_append_left_cancel _ a b h

theorem qualify_beq (a b : String) :
    (qualifyTag a == qualifyTag b) = (a == b) := by
  cases hb : a == b with
  | true => rw [beq_iff_eq] at hb; rw [hb, beq_self_eq_true]
  | false =>
    rw [beq_eq_false_iff_ne] at hb
    rw [beq_eq_false_iff_ne]
    exact fun h => hb (qualifyTag_inj a b h)

theorem qualifyE_mk (tg : String) (a : List (String × String)) (tx : Option String)
    (ch : List XmlElem) :
    qualifyE (XmlElem.mk tg a tx ch) = XmlElem.mk (qualifyTag tg) a tx (qualifyL ch) := by
  simp [qualifyE]

theorem qualifyL_nil : qualifyL [] = [] := by
  simp [qualifyL]

theorem qualifyL_cons (c : XmlElem) (rest : List XmlElem) :
    qualifyL (c :: rest) = qualifyE c :: qualifyL rest := by
  simp [qualifyL]

theorem qualifyL_append (a b : List XmlElem) :
    qualifyL (a ++ b) = qualifyL a ++ qualifyL b := by
  induction a with
  | nil => simp [qualifyL_nil]
  | cons c rest ih => simp [qualifyL_cons, ih]

theorem qualifyE_attrib (e : XmlElem) : (qualifyE e).attrib = e.attrib := by
  cases e with
  | mk tg a tx ch => rw [qualifyE_mk]; rfl

theorem qualifyE_tag (e : XmlElem) : (qualifyE e).tag = qualifyTag e.tag := by
  cases e with
  | mk tg a tx ch => rw [qualifyE_mk]; rfl

theorem qualifyL_map_id (l : List XmlElem) :
    (qualifyL l).map (fun z => dictGet z.attrib "id")
      = l.map (fun z => dictGet z.attrib "id") := by
  induction l with
  | nil => simp [qualifyL_nil]
  | cons c rest ih => simp [qualifyL_cons, qualifyE_attrib, ih]

theorem filter_qualify_plain (t : String) (ht : ¬ t.data.head? = some '\x7b') :
    ∀ l : List XmlElem, (qualifyL l).filter (fun c => c.tag == t) = [] := by
  intro l
  induction l with
  | nil => simp [qualifyL_nil]
  | cons c rest ih =>
    rw [qualifyL_cons, List.filter_cons_of_neg, ih]
    rw [qualifyE_tag]
    simp [qualifyTag_ne c.tag t ht]

theorem findallDeepL_qualify (t : String) :
    ∀ (n : Nat) (l : List XmlElem), sizeOf l ≤ n →
      findallDeepL (qualifyTag t) (qualifyL l) = qualifyL (findallDeepL t l) := by
  intro n
  induction n with
  | zero =>
    intro l h
    cases l with
    | nil => simp [qualifyL_nil, findallDeepL]
    | cons c rest =>
      simp [List.cons.sizeOf_spec] at h
  | succ n ih =>
    intro l h
    cases l with
    | nil => simp [qualifyL_nil, findallDeepL]
    | cons c rest =>
      cases c with
      | mk tg a tx ch =>
        have hsz : 1 + (1 + sizeOf tg + sizeOf a + sizeOf tx + sizeOf ch) + sizeOf rest
            ≤ n + 1 := by
          simpa [List.cons.sizeOf_spec, XmlElem.mk.sizeOf_spec] using h
        have hch : sizeOf ch ≤ n := by omega
        have hrest : sizeOf rest ≤ n := by omega
        rw [qualifyL_cons, qualifyE_mk]
        rw [show findallDeepL (qualifyTag t)
            (XmlElem.mk (qualifyTag tg) a tx (qualifyL ch) :: qualifyL rest)
            = (if (qualifyTag tg == qualifyTag t)
                then [XmlElem.mk (qualifyTag tg) a tx (qualifyL ch)] else [])
              ++ findallDeepL (qualifyTag t) (qualifyL ch)
              ++ findallDeepL (qualifyTag t) (qualifyL rest) from by
          simp [findallDeepL]]
        rw [show findallDeepL t (XmlElem.mk tg a tx ch :: rest)
            = (if (tg == t) then [XmlElem.mk tg a tx ch] else [])
              ++ findallDeepL t ch ++ findallDeepL t rest from by
          simp [findallDeepL]]
        rw [ih ch hch, ih rest hrest, qualify_beq]
        cases htg : tg == t with
        | true =>
          simp only [if_true, qualifyL_append, qualifyL_cons, qualifyL_nil, qualifyE_mk]
        | false =>
          simp [qualifyL_append, qualifyL_nil]

theorem selectSafezones_qualify (zx : XmlElem) :
    (selectSafezones (qualifyE zx)).map (fun z => dictGet z.attrib "id")
      = (findallDeepL "safezone" zx.children).map (fun z => dictGet z.attrib "id") := by
  cases zx with
  | mk tg a tx ch =>
    unfold selectSafezones
    rw [show findallDeep nsSafezoneTag (qualifyE (XmlElem.mk tg a tx ch))
        = findallDeepL nsSafezoneTag (qualifyL ch) from by
      rw [qualifyE_mk]
      simp [findallDeep]]
    rw [show (nsSafezoneTag : String) = qualifyTag "safezone" from by decide]
    rw [findallDeepL_qualify "safezone" (sizeOf ch) ch (le_refl _)]
    cases hd : findallDeepL "safezone" ch with
    | nil =>
      rw [show (XmlElem.mk tg a tx ch).children = ch from rfl, hd]
      simp only [qualifyL_nil, List.length_nil, if_true]
      rw [show findallChild "safezone" (qualifyE (XmlElem.mk tg a tx ch))
          = (qualifyL ch).filter (fun c => c.tag == "safezone") from by
        rw [qualifyE_mk]; rfl]
      rw [filter_qualify_plain "safezone" (by decide) ch]
    | cons z zs =>
      rw [show (XmlElem.mk tg a tx ch).children = ch from rfl, hd]
      simp only [qualifyL_cons, List.length_cons]
      rw [if_neg (by simp)]
      rw [← qualifyL_cons, qualifyL_map_id]

/-- C4 counterexample: two audit-record documents identical except that
one namespace-qualifies its elements; the pipeline yields one flattened
event from the plain document and zero from the qualified one, so the
outputs are not identical and no namespace-qualified record query is
attempted. -/
theorem namespace_tolerance_counterexample :
    get_data_from_api
        ⟨.ok (XmlElem.mk "safezones" [] none
            [XmlElem.mk "safezone" [("id", "Z1")] none []]),
          fun _ => .ok (XmlElem.mk "records" [] none
            [XmlElem.mk "record" [("id", "R1")] none []])⟩
        ⟨none, none, "c"⟩ 0 0
      = .ok [⟨none, "Z1",
          [("record_id", .str (some "R1")), ("type", .str none),
           ("service", .str none)]⟩] ∧
    get_data_from_api
        ⟨.ok (XmlElem.mk "safezones" [] none
            [XmlElem.mk "safezone" [("id", "Z1")] none []]),
          fun _ => .ok (qualifyE (XmlElem.mk "records" [] none
            [XmlElem.mk "record" [("id", "R1")] none []]))⟩
        ⟨none, none, "c"⟩ 0 0
      = .ok [] := by
  constructor <;>
    simp [get_data_from_api, get_data_from_api_traced, selectSafezones,
      findallDeep, findallDeepL, findallChild, zonesLoop, fetchZone,
      qualifyE_mk, qualifyL_cons, qualifyL_nil, qualifyTag, nsSafezoneTag,
      flattenRecord, dictGet, XmlElem.children, XmlElem.tag, XmlElem.attrib,
      XmlElem.text, childStep, Except.map]

/-- C4 (amended): the zones listing is namespace-tolerant - a qualified
listing selects, up to qualification, exactly the deep safezone elements
of its plain form (equal id attributes), and when the plain listing has
no namespace-qualified elements and its safezone elements occur only as
direct children of the root, the two listings select the same ids - but
record parsing performs only a non-namespaced direct-child query, so a
namespace-qualified audit document yields zero record elements. -/
theorem namespace_handling_amended (zx doc : XmlElem)
    (hns : findallDeep nsSafezoneTag zx = []) :
    (findallChild "record" (qualifyE doc) = []) ∧
    ((selectSafezones (qualifyE zx)).map (fun z => dictGet z.attrib "id")
        = (findallDeepL "safezone" zx.children).map (fun z => dictGet z.attrib "id")) ∧
    (findallDeepL "safezone" zx.children = findallChild "safezone" zx →
      (selectSafezones (qualifyE zx)).map (fun z => dictGet z.attrib "id")
        = (selectSafezones zx).map (fun z => dictGet z.attrib "id")) := by
  refine ⟨?_, selectSafezones_qualify zx, fun hflat => ?_⟩
  · cases doc with
    | mk tg a tx ch =>
      rw [show findallChild "record" (qualifyE (XmlElem.mk tg a tx ch))
          = (qualifyL ch).filter (fun c => c.tag == "record") from by
        rw [qualifyE_mk]; rfl]
      exact filter_qualify_plain "record" (by decide) ch
  · rw [selectSafezones_qualify zx, hflat]
    unfold selectSafezones
    rw [hns]
    simp

/-- Closed witness for the amended C4 at a one-zone listing and a one-
record audit document. -/
theorem namespace_handling_amended_witness :
    findallChild "record" (qualifyE (XmlElem.mk "records" [] none
        [XmlElem.mk "record" [("id", "R1")] none []])) = [] ∧
    (selectSafezones (qualifyE (XmlElem.mk "safezones" [] none
          [XmlElem.mk "safezone" [("id", "Z1")] none []]))).map
        (fun z => dictGet z.attrib "id")
      = (selectSafezones (XmlElem.mk "safezones" [] none
          [XmlElem.mk "safezone" [("id", "Z1")] none []])).map
        (fun z => dictGet z.attrib "id") :=
  have h := namespace_handling_amended
    (XmlElem.mk "safezones" [] none [XmlElem.mk "safezone" [("id", "Z1")] none []])
    (XmlElem.mk "records" [] none [XmlElem.mk "record" [("id", "R1")] none []])
    (by simp [findallDeep, findallDeepL, nsSafezoneTag, XmlElem.children])
  ⟨h.1, h.2.2 (by simp [findallDeepL, findallChild, XmlElem.children,
    XmlElem.tag])⟩

/-- C7 counterexample: the time string 2024-01-01Z00:00:00 carries a
non-trailing Z.  Replacing only a trailing Z leaves the string unchanged
and it parses (fromisoformat accepts any single character, Z included, as
the date-time separator), with epoch value 1704067200 seconds; the code
of line 240 replaces every Z, the mangled string no longer parses, and
the event is emitted with no explicit timestamp - so the emitted
timestamp is not the value the trailing-replacement parse yields. -/
theorem event_time_not_trailing_counterexample :
    eventTimeOf (some "2024-01-01Z00:00:00") = none ∧
    fromisoformat (replaceTrailingZ "2024-01-01Z00:00:00")
      = some 1704067200000000 ∧
    emitEvents none [⟨some "2024-01-01Z00:00:00", "Z1", []⟩] none
      = ([⟨none, [], none, "safezone:audit", "Z1"⟩], none) := by
  refine ⟨?_, ?_, ?_⟩ <;> decide

/-- C7 (amended): for every event the emitted timestamp is the epoch
value obtained by parsing the time string as ISO-8601 after replacing
EVERY occurrence of Z with +00:00 (line 240 calls str.replace, which is
global, and on a string with a non-trailing Z this differs from replacing
a trailing one); when the time string is absent, empty or fails to parse
after that replacement, the event is still emitted - the emission loop
renders every event - just with no explicit timestamp. -/
theorem event_time_replace_all :
    (∀ t : Option String, eventTimeOf t
        = t.bind (fun s => fromisoformat (pyReplaceZ s))) ∧
    (∀ (idx : Option String) (e : RawEvent),
        (renderEvent idx e).time = eventTimeOf e.time) ∧
    (∀ (idx : Option String) (events : List RawEvent),
        emitEvents idx events none = (events.map (renderEvent idx), none)) := by
  refine ⟨fun t => ?_, fun idx e => rfl, fun idx events => rfl⟩
  cases t with
  | none => rfl
  | some s =>
    by_cases hs : s = ""
    · subst hs; rfl
    · simp [eventTimeOf, hs]
